import Mathlib

/-!
Shallow embedding of the peerjs-server signaling core (socket.io gateway,
liveness sweeper, instance wiring) for checking the natural-language
specification against the code.

Sources embedded:
  * `CheckBrokenConnections` (liveness sweeper) — `src/unnamed/part_000`, lines 7–88
  * `SocketIOServer` (connection gateway) — `src/unnamed/part_000`, lines 89–247
  * `createInstance` (instance wiring) — `src/src/instance.ts`

The `Realm` registry and the `Client` record live in `models/realm.ts` and
`models/client.ts`, which are not among the provided sources; they are
modelled from the spec (§4.1, §3) as plain in-memory tables.
-/

namespace PeerServer

/-- A transport handle. `sid` models JavaScript object identity (the `===`
comparison between socket objects); `socketId` models `socket.id`;
`queryToken` and `queryKey` model `socket.handshake.query.token` / `.key`.
`none` models an absent (or falsy) value. -/
structure Socket where
  sid : Nat
  socketId : Option String
  queryToken : Option String
  queryKey : Option String
deriving DecidableEq

/-- Modelled from the spec: the identity record ("Client", §3) of
`models/client.ts` — `id`, `token`, a nullable exclusively-owned transport
handle, and a `lastPing` timestamp. -/
structure Client where
  id : String
  token : String
  socket : Option Socket
  lastPing : Int
deriving DecidableEq

/-- The `Errors` enum members used by the gateway (`enums.ts`). -/
inductive Errors
  | INVALID_WS_PARAMETERS
  | INVALID_KEY
  | CONNECTION_LIMIT_EXCEED
deriving DecidableEq

/-- A control message emitted to a single socket by the gateway:
`{type: ERROR, msg}`, `{type: ID_TAKEN, msg: "ID is taken"}` or `{type: OPEN}`. -/
inductive OutMsg
  | errorMsg (e : Errors)
  | idTaken
  | openMsg
deriving DecidableEq

/-- The message types of the wire protocol (`enums.ts`), as far as the core
inspects them; application routing types are opaque to the gateway. -/
inductive MessageType
  | OPEN | ERROR | ID_TAKEN | OFFER | ANSWER | CANDIDATE | LEAVE | HEARTBEAT
deriving DecidableEq

/-- A routed message (`IMessage`): `type`, `src`, `dst`, opaque payload. -/
structure IMessage where
  type : MessageType
  src : Option String
  dst : Option String
  payload : Option String
deriving DecidableEq

/-- Modelled from the spec: the in-memory registry ("Realm", §4.1) of
`models/realm.ts`: a table of identity records keyed by id and a table of
pending-message queues keyed by id. -/
structure Realm where
  clients : List (String × Client)
  messageQueues : List (String × List IMessage)
deriving DecidableEq

/-- Modelled from the spec: `realm.getClientsIds()` — the ids currently
registered (snapshot of the table's keys). -/
def Realm.getClientsIds (r : Realm) : List String :=
  r.clients.map Prod.fst

/-- Modelled from the spec: `realm.getClientById(id)`. -/
def Realm.getClientById (r : Realm) (cid : String) : Option Client :=
  (r.clients.find? (fun p => p.1 == cid)).map Prod.snd

/-- Modelled from the spec: `realm.removeClientById(id)` — discards the
identity record. -/
def Realm.removeClientById (r : Realm) (cid : String) : Realm :=
  { r with clients := r.clients.filter (fun p => p.1 != cid) }

/-- Modelled from the spec: `realm.clearMessageQueue(id)` — discards the
pending queue of `id`. -/
def Realm.clearMessageQueue (r : Realm) (cid : String) : Realm :=
  { r with messageQueues := r.messageQueues.filter (fun p => p.1 != cid) }

/-- Modelled from the spec: `realm.setClient(client, id)` — `Map.set`
semantics: binds `id` to `client`, replacing any previous binding. -/
def Realm.setClient (r : Realm) (c : Client) (cid : String) : Realm :=
  { r with clients := (cid, c) :: r.clients.filter (fun p => p.1 != cid) }

/-- `client.setSocket(s)` performed on the record registered under `cid`:
in the source the gateway mutates the very object stored in the realm, so
the model rewrites the record in place. -/
def Realm.updateClientSocket (r : Realm) (cid : String) (s : Option Socket) : Realm :=
  { r with clients :=
      r.clients.map (fun p => if p.1 == cid then (p.1, { p.2 with socket := s }) else p) }

/-- The gateway configuration fields used by `SocketIOServer`
(`Pick<IConfig, "path" | "key" | "concurrent_limit">`; `path` only names
the endpoint and has no protocol effect, so it is omitted). -/
structure Config where
  key : String
  concurrent_limit : Nat
deriving DecidableEq

/-- The observable outcome of handling one new raw connection:
the resulting registry, the control messages emitted to this socket
(in order), whether `socket.disconnect()` was called, and the identity
passed to the emitted `connection` event (if any). -/
structure ConnResult where
  realm : Realm
  sent : List OutMsg
  disconnected : Bool
  connectionEvent : Option String
deriving DecidableEq

/-- `SocketIOServer._configureSocket` (part_000 lines 211–237), restricted to
its registry effect and its `connection` event: `client.setSocket(socket)`
on the record of `cid` (message/disconnect listeners are modelled separately
by `onSocketMessage` and `onDisconnect`). -/
def configureSocket (r : Realm) (cid : String) (s : Socket) : Realm :=
  r.updateClientSocket cid (some s)

/-- `SocketIOServer._registerClient` (part_000 lines 188–209): reject with
`CONNECTION_LIMIT_EXCEED` when `realm.getClientsIds().length >=
concurrent_limit`; otherwise create `new Client({id, token})` (socket null,
`lastPing` the construction time `now`), `realm.setClient`, emit OPEN and
configure the socket. -/
def registerClient (cfg : Config) (r : Realm) (s : Socket) (cid token : String)
    (now : Int) : ConnResult :=
  let clientsCount := r.getClientsIds.length
  if cfg.concurrent_limit ≤ clientsCount then
    ⟨r, [OutMsg.errorMsg Errors.CONNECTION_LIMIT_EXCEED], true, none⟩
  else
    let newClient : Client := ⟨cid, token, none, now⟩
    let r1 := r.setClient newClient cid
    ⟨configureSocket r1 cid s, [OutMsg.openMsg], false, some cid⟩

/-- `SocketIOServer._onSocketConnection` (part_000 lines 149–182):
`token`/`key` come from `socket.handshake.query`, `id` from `socket.id`;
missing values → ERROR `INVALID_WS_PARAMETERS` and disconnect; wrong key →
ERROR `INVALID_KEY` and disconnect; known id with wrong token → ID_TAKEN
and disconnect; known id with matching token → reconfigure the existing
record with the new socket; unknown id → `_registerClient`. -/
def onSocketConnection (cfg : Config) (r : Realm) (s : Socket) (now : Int) : ConnResult :=
  match s.socketId, s.queryToken, s.queryKey with
  | some cid, some token, some key =>
    if key = cfg.key then
      match r.getClientById cid with
      | some client =>
        if token = client.token then
          ⟨configureSocket r cid s, [], false, some cid⟩
        else
          ⟨r, [OutMsg.idTaken], true, none⟩
      | none => registerClient cfg r s cid token now
    else
      ⟨r, [OutMsg.errorMsg Errors.INVALID_KEY], true, none⟩
  | _, _, _ => ⟨r, [OutMsg.errorMsg Errors.INVALID_WS_PARAMETERS], true, none⟩

/-- The `disconnect` listener installed by `_configureSocket` (part_000
lines 214–219): if the socket currently attached to the record of `cid` is
this very socket (`===`, modelled by `sid` equality), remove the record and
emit `close` with the identity; otherwise do nothing. Returns the resulting
realm and the identity passed to the `close` event (if any). -/
def onDisconnect (r : Realm) (cid : String) (s : Socket) : Realm × Option String :=
  match r.getClientById cid with
  | some client =>
    match client.socket with
    | some s2 => if s2.sid == s.sid then (r.removeClientById cid, some cid) else (r, none)
    | none => (r, none)
  | none => (r, none)

/-- An inbound data frame as seen by the `message` listener: either an
already-structured object, or a text frame carrying its `JSON.parse`
outcome (`none` models a parse failure, i.e. `JSON.parse` throwing). -/
inductive InboundData
  | structured (m : IMessage)
  | text (parsed : Option IMessage)
deriving DecidableEq

/-- What the `message` listener emits for one frame. -/
inductive MessageOutcome
  | emitMessage (cid : String) (m : IMessage)
  | emitError
deriving DecidableEq

/-- The `message` listener installed by `_configureSocket` (part_000 lines
221–234): parse text frames with `JSON.parse` (a throw is caught and emits
`error`), take structured frames as-is, then force `message.src =
client.getId()` and emit `message` with (identity, message). -/
def onSocketMessage (cid : String) (d : InboundData) : MessageOutcome :=
  match d with
  | InboundData.structured m => MessageOutcome.emitMessage cid { m with src := some cid }
  | InboundData.text (some m) => MessageOutcome.emitMessage cid { m with src := some cid }
  | InboundData.text none => MessageOutcome.emitError

/-! ## Liveness sweeper (`CheckBrokenConnections`) -/

/-- The observable outcome of one sweep pass: the resulting registry, the
socket handles on which a close call was made (`socket.close()` /
`socket.disconnect()`), the arguments of the `onClose` callback invocations
in order, and whether an exception escaped the pass (aborting it). -/
structure SweepResult where
  realm : Realm
  closed : List Nat
  callbacks : List Client
  aborted : Bool
deriving DecidableEq

/-- The `for (const clientId of clientsIds)` loop of
`CheckBrokenConnections.checkConnections` (part_000 lines 62–86).
`closeThrows sid` says whether the close call on the socket with identity
`sid` raises. The body is `try { close } finally { clearMessageQueue;
removeClientById; setSocket(null); onClose }`: there is no catch clause, so
when the close call raises, the `finally` cleanup still runs for that
identity and the exception then propagates, ending the loop. -/
def checkConnectionsLoop (now aliveTimeout : Int) (closeThrows : Nat → Bool) :
    List String → Realm → SweepResult
  | [], r => ⟨r, [], [], false⟩
  | cid :: rest, r =>
    match r.getClientById cid with
    | none => checkConnectionsLoop now aliveTimeout closeThrows rest r
    | some client =>
      if now - client.lastPing < aliveTimeout then
        checkConnectionsLoop now aliveTimeout closeThrows rest r
      else
        let closedHere : List Nat :=
          match client.socket with
          | some s => [s.sid]
          | none => []
        let threw : Bool :=
          match client.socket with
          | some s => closeThrows s.sid
          | none => false
        let r1 := (r.clearMessageQueue cid).removeClientById cid
        let client1 : Client := { client with socket := none }
        if threw then
          ⟨r1, closedHere, [client1], true⟩
        else
          let res := checkConnectionsLoop now aliveTimeout closeThrows rest r1
          ⟨res.realm, closedHere ++ res.closed, client1 :: res.callbacks, res.aborted⟩

/-- `CheckBrokenConnections.checkConnections` (part_000 lines 56–87):
snapshot `realm.getClientsIds()`, then run the sweep loop over it. -/
def checkConnections (now aliveTimeout : Int) (closeThrows : Nat → Bool)
    (r : Realm) : SweepResult :=
  checkConnectionsLoop now aliveTimeout closeThrows r.getClientsIds r

/-- A record is stale exactly when the code's skip guard
`timeSinceLastPing < aliveTimeout` fails. -/
def isStale (now aliveTimeout : Int) (c : Client) : Bool :=
  decide (aliveTimeout ≤ now - c.lastPing)

/-- Whether the sweep over a snapshot containing `cid` evicts the record
currently registered under `cid` in `r` (absent records are skipped). -/
def staleKey (now aliveTimeout : Int) (r : Realm) (cid : String) : Bool :=
  match r.getClientById cid with
  | some c => isStale now aliveTimeout c
  | none => false

/-- The `onClose` arguments produced by one throw-free pass over `ids`:
one detached record per stale id, in snapshot order. -/
def sweptClients (now aliveTimeout : Int) (r : Realm) (ids : List String) : List Client :=
  ids.filterMap (fun cid =>
    match r.getClientById cid with
    | some c =>
      if isStale now aliveTimeout c then some { c with socket := none } else none
    | none => none)

/-- The socket handles closed by one throw-free pass over `ids`. -/
def sweptSockets (now aliveTimeout : Int) (r : Realm) (ids : List String) : List Nat :=
  ids.filterMap (fun cid =>
    match r.getClientById cid with
    | some c =>
      if isStale now aliveTimeout c then c.socket.map Socket.sid else none
    | none => none)

/-! ## Timer discipline of `CheckBrokenConnections.start` / `stop` -/

/-- `DEFAULT_CHECK_INTERVAL` (part_000 line 7). -/
def DEFAULT_CHECK_INTERVAL : Nat := 300

/-- The timer state of a `CheckBrokenConnections` instance: its
`checkInterval` and the absolute time at which the pending `setTimeout`
(`timeoutId`) will fire, if one is pending. The single `timeoutId` field of
the source holds at most one pending timer, hence an `Option`. -/
structure SweeperTimer where
  checkInterval : Nat
  pendingFireAt : Option Nat
deriving DecidableEq

/-- `start()` (part_000 lines 35–47) called at absolute time `now`:
`clearTimeout` on any pending timer, then arm a single `setTimeout` for
`checkInterval` from now. -/
def SweeperTimer.start (t : SweeperTimer) (now : Nat) : SweeperTimer :=
  { t with pendingFireAt := some (now + t.checkInterval) }

/-- `stop()` (part_000 lines 49–54): cancel the pending timer, if any, and
do not reschedule. -/
def SweeperTimer.stop (t : SweeperTimer) : SweeperTimer :=
  { t with pendingFireAt := none }

/-- The pending timer firing: the callback runs `checkConnections()` (the
pass occupies `[fireAt, fireAt + dur]` where `dur` is the pass duration),
sets `timeoutId = null`, then calls `start()` — so the next pass is armed
`checkInterval` after the current pass completes. Returns the new timer
state and the pass interval; `none` when no timer is pending. -/
def SweeperTimer.fire (t : SweeperTimer) (dur : Nat) :
    Option (SweeperTimer × Nat × Nat) :=
  match t.pendingFireAt with
  | none => none
  | some ft => some ({ t with pendingFireAt := some (ft + dur + t.checkInterval) }, ft, ft + dur)

/-- The pass intervals produced by letting the armed timer fire repeatedly,
one pass per listed duration. -/
def firePasses : SweeperTimer → List Nat → List (Nat × Nat)
  | _, [] => []
  | t, d :: ds =>
    match t.fire d with
    | none => []
    | some (t1, s, e) => (s, e) :: firePasses t1 ds

/-- The pass intervals a self-rescheduling timer produces when armed at
`ft`: each pass starts when the timer fires, lasts its duration, and the
next pass is armed `interval` after the pass completes. -/
def passChain (interval : Nat) : Nat → List Nat → List (Nat × Nat)
  | _, [] => []
  | ft, d :: ds => (ft, ft + d) :: passChain interval (ft + d + interval) ds

/-! ## Instance wiring (`createInstance`, src/src/instance.ts) -/

/-- The facts about `createInstance` the claims inspect: whether a
`CheckBrokenConnections` sweeper was constructed, whether `start()` was
called on it, and which gateway was selected. -/
structure InstanceState where
  sweeperConstructed : Bool
  sweeperStarted : Bool
  usesSocketIoServer : Bool
deriving DecidableEq

/-- `createInstance` (instance.ts lines 27–147), restricted to its
sweeper/gateway wiring: the sweeper is constructed only under
`config.server_type !== "socketio"` (lines 46–55), the gateway is selected
by `config.server_type === "socketio"` (line 67), and `start()` is called
only under `config.server_type !== "socketio"` (lines 144–146). -/
def createInstance (server_type : String) : InstanceState :=
  let sweeperConstructed := server_type != "socketio"
  let usesSocketIoServer := server_type == "socketio"
  let sweeperStarted := server_type != "socketio"
  ⟨sweeperConstructed, sweeperStarted, usesSocketIoServer⟩

/-! ## Helper lemmas about the registry tables -/

theorem find?_key_cons_pos {α : Type} (hd : String × α) (tl : List (String × α)) (k : String)
    (h : (hd.1 == k) = true) :
    List.find? (fun p => p.1 == k) (hd :: tl) = some hd := by
  rw [List.find?_cons]
  simp only [h]

theorem find?_key_cons_neg {α : Type} (hd : String × α) (tl : List (String × α)) (k : String)
    (h : (hd.1 == k) = false) :
    List.find? (fun p => p.1 == k) (hd :: tl) = List.find? (fun p => p.1 == k) tl := by
  rw [List.find?_cons]
  simp only [h]

theorem find?_filter_ne {α : Type} (l : List (String × α)) (cid k : String) (h : k ≠ cid) :
    (l.filter (fun p => p.1 != cid)).find? (fun p => p.1 == k) =
      l.find? (fun p => p.1 == k) := by
  induction l with
  | nil => rfl
  | cons hd tl ih =>
    by_cases hhd : hd.1 = cid
    · have h1 : (hd.1 != cid) = false := by simp [hhd]
      have h2 : (hd.1 == k) = false := by
        rw [hhd]
        exact beq_false_of_ne (fun hk => h hk.symm)
      rw [List.filter_cons, h1]
      simp only [Bool.false_eq_true, if_false]
      rw [ih, find?_key_cons_neg hd tl k h2]
    · have h1 : (hd.1 != cid) = true := by simp [hhd]
      rw [List.filter_cons, h1]
      simp only [if_true]
      by_cases hk : hd.1 = k
      · have h2 : (hd.1 == k) = true := by simp [hk]
        rw [find?_key_cons_pos hd _ k h2, find?_key_cons_pos hd tl k h2]
      · have h2 : (hd.1 == k) = false := by simp [hk]
        rw [find?_key_cons_neg hd _ k h2, find?_key_cons_neg hd tl k h2, ih]

theorem getClientById_removeClientById_ne (r : Realm) (cid k : String) (h : k ≠ cid) :
    (r.removeClientById cid).getClientById k = r.getClientById k := by
  unfold Realm.removeClientById Realm.getClientById
  rw [find?_filter_ne r.clients cid k h]

theorem getClientById_clearMessageQueue (r : Realm) (cid k : String) :
    (r.clearMessageQueue cid).getClientById k = r.getClientById k := rfl

theorem getClientsIds_updateClientSocket (r : Realm) (cid : String) (s : Option Socket) :
    (r.updateClientSocket cid s).getClientsIds = r.getClientsIds := by
  unfold Realm.updateClientSocket Realm.getClientsIds
  simp only [List.map_map]
  apply List.map_congr_left
  intro p _
  by_cases h : p.1 = cid <;> simp [h]

theorem find?_map_updateSocket (l : List (String × Client)) (cid : String)
    (s : Option Socket) (c : Client)
    (h : (l.find? (fun p => p.1 == cid)).map Prod.snd = some c) :
    ((l.map (fun p => if p.1 == cid then (p.1, { p.2 with socket := s }) else p)).find?
        (fun p => p.1 == cid)).map Prod.snd = some { c with socket := s } := by
  induction l with
  | nil => simp at h
  | cons hd tl ih =>
    by_cases hhd : hd.1 = cid
    · have h1 : (hd.1 == cid) = true := by simp [hhd]
      rw [find?_key_cons_pos hd tl cid h1] at h
      simp at h
      rw [List.map_cons, if_pos h1, List.find?_cons]
      simp [h1, h]
    · have h1 : (hd.1 == cid) = false := by simp [hhd]
      rw [find?_key_cons_neg hd tl cid h1] at h
      rw [List.map_cons, if_neg (by simp [hhd])]
      rw [find?_key_cons_neg hd _ cid h1]
      exact ih h

theorem getClientById_updateClientSocket_self (r : Realm) (cid : String) (s : Option Socket)
    (c : Client) (h : r.getClientById cid = some c) :
    (r.updateClientSocket cid s).getClientById cid = some { c with socket := s } :=
  find?_map_updateSocket r.clients cid s c h

theorem filter_ne_of_find?_none {α : Type} (l : List (String × α)) (cid : String)
    (h : l.find? (fun p => p.1 == cid) = none) :
    l.filter (fun p => p.1 != cid) = l := by
  induction l with
  | nil => rfl
  | cons hd tl ih =>
    rw [List.find?_cons] at h
    cases hb : (hd.1 == cid) with
    | true => simp only [hb] at h; simp at h
    | false =>
      simp only [hb] at h
      have h1 : (hd.1 != cid) = true := by simp [bne, hb]
      rw [List.filter_cons, h1]
      simp only [if_true]
      rw [ih h]

theorem getClientById_setClient_self (r : Realm) (c : Client) (cid : String) :
    (r.setClient c cid).getClientById cid = some c := by
  unfold Realm.setClient Realm.getClientById
  rw [List.find?_cons]
  simp

theorem count_setClient_of_absent (r : Realm) (c : Client) (cid : String)
    (h : r.getClientById cid = none) :
    (r.setClient c cid).getClientsIds.length = r.getClientsIds.length + 1 := by
  have hf : r.clients.find? (fun p => p.1 == cid) = none := by
    unfold Realm.getClientById at h
    cases hf : r.clients.find? (fun p => p.1 == cid) with
    | none => rfl
    | some p => rw [hf] at h; simp at h
  unfold Realm.setClient Realm.getClientsIds
  rw [filter_ne_of_find?_none r.clients cid hf]
  simp

/-- Any single handshake preserves the bound `count ≤ concurrent_limit` on
the number of registered identities: rejected or reconnecting handshakes
leave the count unchanged, and a new registration is admitted only when the
count is strictly below the limit. -/
theorem count_le_after_connection (cfg : Config) (r : Realm) (s : Socket) (now : Int)
    (h : r.getClientsIds.length ≤ cfg.concurrent_limit) :
    (onSocketConnection cfg r s now).realm.getClientsIds.length ≤
      cfg.concurrent_limit := by
  unfold onSocketConnection
  obtain ⟨sid, a, b, k⟩ := s
  cases a with
  | none => exact h
  | some cid =>
    cases b with
    | none => exact h
    | some token =>
      cases k with
      | none => exact h
      | some key =>
        dsimp only
        by_cases hk : key = cfg.key
        · rw [if_pos hk]
          cases hcl : r.getClientById cid with
          | some c =>
            dsimp only
            by_cases ht : token = c.token
            · rw [if_pos ht]
              dsimp only
              unfold configureSocket
              rw [getClientsIds_updateClientSocket]
              exact h
            · rw [if_neg ht]; exact h
          | none =>
            dsimp only
            simp only [registerClient]
            by_cases hle : cfg.concurrent_limit ≤ r.getClientsIds.length
            · rw [if_pos hle]; exact h
            · rw [if_neg hle]
              dsimp only
              unfold configureSocket
              rw [getClientsIds_updateClientSocket]
              rw [count_setClient_of_absent r _ cid hcl]
              omega
        · rw [if_neg hk]; exact h

/-! ## Claim theorems: gateway handshake -/

/-- C2: for every new raw connection, if any of id, token, key is missing
from the handshake, the gateway sends an ERROR message of kind
`INVALID_WS_PARAMETERS`, disconnects the socket, and leaves the registry
unchanged (no entry created). -/
theorem C2_missing_parameters_rejected (cfg : Config) (r : Realm) (s : Socket) (now : Int)
    (h : s.socketId = none ∨ s.queryToken = none ∨ s.queryKey = none) :
    onSocketConnection cfg r s now =
      ⟨r, [OutMsg.errorMsg Errors.INVALID_WS_PARAMETERS], true, none⟩ := by
  obtain ⟨sid, a, b, c⟩ := s
  simp only at h
  rcases h with h | h | h
  · subst h; cases b <;> cases c <;> rfl
  · subst h; cases a <;> cases c <;> rfl
  · subst h; cases a <;> cases b <;> rfl

theorem C2_missing_parameters_rejected_witness :
    onSocketConnection ⟨"K", 5⟩ ⟨[], []⟩ ⟨0, some "a", none, some "K"⟩ 0 =
      ⟨⟨[], []⟩, [OutMsg.errorMsg Errors.INVALID_WS_PARAMETERS], true, none⟩ :=
  C2_missing_parameters_rejected ⟨"K", 5⟩ ⟨[], []⟩ ⟨0, some "a", none, some "K"⟩ 0
    (Or.inr (Or.inl rfl))

/-- C3: `createInstance` with `server_type = "socketio"` never constructs or
starts the `CheckBrokenConnections` liveness sweeper (so no liveness
eviction can ever run on a socketio instance), while any other
`server_type` both constructs and starts it. -/
theorem C3_socketio_never_starts_sweeper (t : String) (h : t ≠ "socketio") :
    (createInstance "socketio").sweeperConstructed = false ∧
    (createInstance "socketio").sweeperStarted = false ∧
    (createInstance "socketio").usesSocketIoServer = true ∧
    (createInstance t).sweeperConstructed = true ∧
    (createInstance t).sweeperStarted = true := by
  refine ⟨rfl, rfl, rfl, ?_, ?_⟩ <;> simp [createInstance, h]

theorem C3_socketio_never_starts_sweeper_witness :
    (createInstance "socketio").sweeperConstructed = false ∧
    (createInstance "websocket").sweeperStarted = true :=
  ⟨(C3_socketio_never_starts_sweeper "websocket" (by decide)).1,
   (C3_socketio_never_starts_sweeper "websocket" (by decide)).2.2.2.2⟩

/-- C4: a handshake claiming a new (unregistered) id registers only when
the current identity count is strictly below `concurrent_limit`: at or
above the limit the peer gets ERROR `CONNECTION_LIMIT_EXCEED`, is
disconnected and no record is created (registry unchanged); below the
limit the record is created (count grows by one) and OPEN is sent; and —
for every handshake whatsoever — the identity count never exceeds
`concurrent_limit`. -/
theorem C4_concurrent_limit_enforced (cfg : Config) (r : Realm) (s : Socket) (now : Int)
    (cid token : String)
    (hid : s.socketId = some cid) (htok : s.queryToken = some token)
    (hkey : s.queryKey = some cfg.key) (hnew : r.getClientById cid = none) :
    (cfg.concurrent_limit ≤ r.getClientsIds.length →
      onSocketConnection cfg r s now =
        ⟨r, [OutMsg.errorMsg Errors.CONNECTION_LIMIT_EXCEED], true, none⟩) ∧
    (r.getClientsIds.length < cfg.concurrent_limit →
      (onSocketConnection cfg r s now).realm.getClientById cid =
          some ⟨cid, token, some s, now⟩ ∧
      (onSocketConnection cfg r s now).realm.getClientsIds.length =
          r.getClientsIds.length + 1 ∧
      (onSocketConnection cfg r s now).sent = [OutMsg.openMsg] ∧
      (onSocketConnection cfg r s now).disconnected = false) ∧
    (∀ (cfg2 : Config) (r2 : Realm) (s2 : Socket) (now2 : Int),
      r2.getClientsIds.length ≤ cfg2.concurrent_limit →
      (onSocketConnection cfg2 r2 s2 now2).realm.getClientsIds.length ≤
        cfg2.concurrent_limit) := by
  have hred : onSocketConnection cfg r s now = registerClient cfg r s cid token now := by
    unfold onSocketConnection
    rw [hid, htok, hkey]
    simp [hnew]
  refine ⟨?_, ?_, fun cfg2 r2 s2 now2 h2 => count_le_after_connection cfg2 r2 s2 now2 h2⟩
  · intro hle
    rw [hred]
    simp only [registerClient]
    rw [if_pos hle]
  · intro hlt
    have hnle : ¬(cfg.concurrent_limit ≤ r.getClientsIds.length) := not_le.mpr hlt
    have hreg : onSocketConnection cfg r s now =
        ⟨configureSocket (r.setClient ⟨cid, token, none, now⟩ cid) cid s,
          [OutMsg.openMsg], false, some cid⟩ := by
      rw [hred]
      simp only [registerClient]
      rw [if_neg hnle]
    refine ⟨?_, ?_, ?_, ?_⟩
    · rw [hreg]
      exact getClientById_updateClientSocket_self _ cid (some s) ⟨cid, token, none, now⟩
        (getClientById_setClient_self r ⟨cid, token, none, now⟩ cid)
    · rw [hreg]
      show (configureSocket (r.setClient ⟨cid, token, none, now⟩ cid) cid
        s).getClientsIds.length = r.getClientsIds.length + 1
      unfold configureSocket
      rw [getClientsIds_updateClientSocket]
      exact count_setClient_of_absent r ⟨cid, token, none, now⟩ cid hnew
    · rw [hreg]
    · rw [hreg]

theorem C4_concurrent_limit_enforced_witness :
    onSocketConnection ⟨"K", 0⟩ ⟨[], []⟩ ⟨0, some "a", some "t", some "K"⟩ 0 =
      ⟨⟨[], []⟩, [OutMsg.errorMsg Errors.CONNECTION_LIMIT_EXCEED], true, none⟩ :=
  (C4_concurrent_limit_enforced ⟨"K", 0⟩ ⟨[], []⟩ ⟨0, some "a", some "t", some "K"⟩ 0
    "a" "t" rfl rfl rfl rfl).1 (by decide)

/-- C5: a handshake presenting an id that is already registered together
with that record's stored token is admitted as a reconnect regardless of
the configured limit and the registry population: no limit check is made
(the conclusion holds for every `concurrent_limit`), the new socket is
attached to the existing record, the set of registered ids is unchanged
(no new record), nothing is sent, and the connection is not dropped. -/
theorem C5_reconnect_with_correct_token (cfg : Config) (r : Realm) (s : Socket) (now : Int)
    (cid : String) (c : Client)
    (hid : s.socketId = some cid) (htok : s.queryToken = some c.token)
    (hkey : s.queryKey = some cfg.key) (hex : r.getClientById cid = some c) :
    onSocketConnection cfg r s now =
      ⟨r.updateClientSocket cid (some s), [], false, some cid⟩ ∧
    (r.updateClientSocket cid (some s)).getClientsIds = r.getClientsIds ∧
    (r.updateClientSocket cid (some s)).getClientById cid =
      some { c with socket := some s } := by
  refine ⟨?_, getClientsIds_updateClientSocket r cid (some s),
    getClientById_updateClientSocket_self r cid (some s) c hex⟩
  unfold onSocketConnection
  rw [hid, htok, hkey]
  simp [hex, configureSocket]

theorem C5_reconnect_with_correct_token_witness :
    onSocketConnection ⟨"K", 0⟩ ⟨[("a", ⟨"a", "t", none, 0⟩)], []⟩
        ⟨7, some "a", some "t", some "K"⟩ 5 =
      ⟨⟨[("a", ⟨"a", "t", some ⟨7, some "a", some "t", some "K"⟩, 0⟩)], []⟩, [], false,
        some "a"⟩ := by
  have h := C5_reconnect_with_correct_token ⟨"K", 0⟩ ⟨[("a", ⟨"a", "t", none, 0⟩)], []⟩
    ⟨7, some "a", some "t", some "K"⟩ 5 "a" ⟨"a", "t", none, 0⟩ rfl rfl rfl (by decide)
  rw [h.1]
  rfl

/-- C6: a handshake presenting a registered id with a token that differs
from the stored token receives a message of kind ID_TAKEN and is
disconnected, and the registry — in particular the existing record and its
attached socket — is exactly unchanged. -/
theorem C6_wrong_token_id_taken (cfg : Config) (r : Realm) (s : Socket) (now : Int)
    (cid token : String) (c : Client)
    (hid : s.socketId = some cid) (htok : s.queryToken = some token)
    (hkey : s.queryKey = some cfg.key) (hex : r.getClientById cid = some c)
    (hne : token ≠ c.token) :
    onSocketConnection cfg r s now = ⟨r, [OutMsg.idTaken], true, none⟩ := by
  unfold onSocketConnection
  rw [hid, htok, hkey]
  simp [hex, hne]

theorem C6_wrong_token_id_taken_witness :
    onSocketConnection ⟨"K", 9⟩ ⟨[("a", ⟨"a", "t1", some ⟨3, none, none, none⟩, 0⟩)], []⟩
        ⟨7, some "a", some "t2", some "K"⟩ 5 =
      ⟨⟨[("a", ⟨"a", "t1", some ⟨3, none, none, none⟩, 0⟩)], []⟩, [OutMsg.idTaken], true,
        none⟩ :=
  C6_wrong_token_id_taken ⟨"K", 9⟩ ⟨[("a", ⟨"a", "t1", some ⟨3, none, none, none⟩, 0⟩)], []⟩
    ⟨7, some "a", some "t2", some "K"⟩ 5 "a" "t2" ⟨"a", "t1", some ⟨3, none, none, none⟩, 0⟩
    rfl rfl rfl (by decide) (by decide)

/-- C7: the disconnect listener removes the record and emits `close` only
when the socket currently attached to the identity's record is the very
socket that disconnected; if the handle was superseded (or detached), the
handler changes nothing. -/
theorem C7_disconnect_checks_handle_identity (r : Realm) (cid : String) (s : Socket)
    (c : Client) (hex : r.getClientById cid = some c) :
    (c.socket.map Socket.sid = some s.sid →
      onDisconnect r cid s = (r.removeClientById cid, some cid)) ∧
    (c.socket.map Socket.sid ≠ some s.sid → onDisconnect r cid s = (r, none)) := by
  have hb : onDisconnect r cid s =
      (match c.socket with
        | some s2 =>
          if s2.sid == s.sid then (r.removeClientById cid, some cid) else (r, none)
        | none => (r, none)) := by
    unfold onDisconnect
    rw [hex]
  constructor
  · intro h
    rw [hb]
    cases hc : c.socket with
    | none => rw [hc] at h; simp at h
    | some s2 =>
      rw [hc] at h
      simp at h
      simp [h]
  · intro h
    rw [hb]
    cases hc : c.socket with
    | none => rfl
    | some s2 =>
      rw [hc] at h
      simp at h
      simp [h]

theorem C7_disconnect_checks_handle_identity_witness :
    onDisconnect ⟨[("a", ⟨"a", "t", some ⟨3, none, none, none⟩, 0⟩)], []⟩ "a"
        ⟨4, none, none, none⟩ =
      (⟨[("a", ⟨"a", "t", some ⟨3, none, none, none⟩, 0⟩)], []⟩, none) :=
  (C7_disconnect_checks_handle_identity ⟨[("a", ⟨"a", "t", some ⟨3, none, none, none⟩, 0⟩)], []⟩
    "a" ⟨4, none, none, none⟩ ⟨"a", "t", some ⟨3, none, none, none⟩, 0⟩ (by decide)).2
    (by decide)

/-- C9: for every inbound data frame that yields an emitted message —
whether the frame is structured or serialized text — the emitted message
has `src` forced to the connection's registered id, overwriting any
client-declared `src`; a text frame that fails to parse emits `error`. -/
theorem C9_src_forced_to_registered_id (cid : String) (m : IMessage) :
    onSocketMessage cid (InboundData.structured m) =
      MessageOutcome.emitMessage cid { m with src := some cid } ∧
    onSocketMessage cid (InboundData.text (some m)) =
      MessageOutcome.emitMessage cid { m with src := some cid } ∧
    onSocketMessage cid (InboundData.text none) = MessageOutcome.emitError :=
  ⟨rfl, rfl, rfl⟩

/-! ## Claim theorems: liveness sweeper -/

/-- C1 counterexample: with two stale registered identities "a" and "b" and
a close call that raises on "a"'s socket, the pass aborts after "a": the
raised error is not swallowed, and the remaining stale identity "b" is left
registered — refuting the claim that a close failure never aborts the sweep
for the remaining ids of the pass. -/
theorem C1_counterexample_close_failure_aborts_pass :
    (checkConnections 100 50 (fun n => n == 1)
        ⟨[("a", ⟨"a", "t", some ⟨1, none, none, none⟩, 0⟩),
          ("b", ⟨"b", "t", some ⟨2, none, none, none⟩, 0⟩)], []⟩).aborted = true ∧
    (checkConnections 100 50 (fun n => n == 1)
        ⟨[("a", ⟨"a", "t", some ⟨1, none, none, none⟩, 0⟩),
          ("b", ⟨"b", "t", some ⟨2, none, none, none⟩, 0⟩)], []⟩).realm.getClientById "b" =
      some ⟨"b", "t", some ⟨2, none, none, none⟩, 0⟩ ∧
    isStale 100 50 ⟨"b", "t", some ⟨2, none, none, none⟩, 0⟩ = true := by
  decide

/-- C1 (amended): when closing a stale identity's transport raises, the
`finally` cleanup still runs for that identity — its queue is cleared, its
record removed, and the close callback invoked with the detached record —
but the error then propagates and aborts the sweep for the remaining ids of
the pass (the rest of the snapshot is left unprocessed). -/
theorem C1_cleanup_survives_close_failure (now tmo : Int) (ct : Nat → Bool)
    (cid : String) (rest : List String) (r : Realm) (c : Client) (s : Socket)
    (hl : r.getClientById cid = some c) (hstale : ¬(now - c.lastPing < tmo))
    (hsock : c.socket = some s) (hthrow : ct s.sid = true) :
    checkConnectionsLoop now tmo ct (cid :: rest) r =
      ⟨(r.clearMessageQueue cid).removeClientById cid, [s.sid],
        [{ c with socket := none }], true⟩ := by
  simp only [checkConnectionsLoop]
  rw [hl]
  dsimp only
  rw [if_neg hstale, hsock]
  simp [hthrow]

theorem C1_cleanup_survives_close_failure_witness :
    checkConnectionsLoop 10 1 (fun n => n == 5) ["x", "y"]
        ⟨[("x", ⟨"x", "t", some ⟨5, none, none, none⟩, 0⟩)], [("x", [])]⟩ =
      ⟨⟨[], []⟩, [5], [⟨"x", "t", none, 0⟩], true⟩ := by
  have h := C1_cleanup_survives_close_failure 10 1 (fun n => n == 5) "x" ["y"]
    ⟨[("x", ⟨"x", "t", some ⟨5, none, none, none⟩, 0⟩)], [("x", [])]⟩
    ⟨"x", "t", some ⟨5, none, none, none⟩, 0⟩ ⟨5, none, none, none⟩
    (by decide) (by decide) rfl rfl
  rw [h]
  decide

/-! ## Characterization of a throw-free sweep pass -/

theorem find?_eq_none_of_lookup_none (r : Realm) (cid : String)
    (h : r.getClientById cid = none) :
    r.clients.find? (fun p => p.1 == cid) = none := by
  unfold Realm.getClientById at h
  cases hf : r.clients.find? (fun p => p.1 == cid) with
  | none => rfl
  | some p => rw [hf] at h; simp at h

theorem ne_key_of_find?_none {α : Type} (l : List (String × α)) (k : String)
    (h : l.find? (fun p => p.1 == k) = none) :
    ∀ p ∈ l, p.1 ≠ k := by
  intro p hp he
  have hx := List.find?_eq_none.mp h p hp
  simp [he] at hx

theorem value_eq_of_lookup {α : Type} :
    ∀ (l : List (String × α)) (k : String) (v : α),
      (l.map Prod.fst).Nodup →
      (l.find? (fun p => p.1 == k)).map Prod.snd = some v →
      ∀ p ∈ l, p.1 = k → p.2 = v
  | [], _, _, _, h => by simp at h
  | hd :: tl, k, v, hnd, h => by
    rw [List.map_cons, List.nodup_cons] at hnd
    intro p hp hpk
    rcases List.mem_cons.mp hp with rfl | hptl
    · have h1 : (p.1 == k) = true := by simp [hpk]
      rw [find?_key_cons_pos p tl k h1] at h
      simpa using h
    · by_cases hhd : hd.1 = k
      · exfalso
        apply hnd.1
        rw [hhd, ← hpk]
        exact List.mem_map_of_mem Prod.fst hptl
      · have h1 : (hd.1 == k) = false := by simp [hhd]
        rw [find?_key_cons_neg hd tl k h1] at h
        exact value_eq_of_lookup tl k v hnd.2 h p hptl hpk

theorem sweptClients_congr (now tmo : Int) (r1 r2 : Realm) :
    ∀ (ids : List String),
      (∀ k ∈ ids, r1.getClientById k = r2.getClientById k) →
      sweptClients now tmo r1 ids = sweptClients now tmo r2 ids
  | [], _ => rfl
  | cid :: rest, h => by
    have hh := h cid (List.mem_cons_self cid rest)
    have ht := sweptClients_congr now tmo r1 r2 rest
      (fun k hk => h k (List.mem_cons_of_mem cid hk))
    simp only [sweptClients, List.filterMap_cons] at ht ⊢
    rw [hh, ht]

theorem sweptSockets_congr (now tmo : Int) (r1 r2 : Realm) :
    ∀ (ids : List String),
      (∀ k ∈ ids, r1.getClientById k = r2.getClientById k) →
      sweptSockets now tmo r1 ids = sweptSockets now tmo r2 ids
  | [], _ => rfl
  | cid :: rest, h => by
    have hh := h cid (List.mem_cons_self cid rest)
    have ht := sweptSockets_congr now tmo r1 r2 rest
      (fun k hk => h k (List.mem_cons_of_mem cid hk))
    simp only [sweptSockets, List.filterMap_cons] at ht ⊢
    rw [hh, ht]

theorem getClientById_cleanup_ne (r : Realm) (cid k : String) (h : k ≠ cid) :
    ((r.clearMessageQueue cid).removeClientById cid).getClientById k =
      r.getClientById k :=
  getClientById_removeClientById_ne (r.clearMessageQueue cid) cid k h

/-- A throw-free sweep loop over a duplicate-free snapshot keeps exactly
the non-stale entries (and the queues of non-swept ids), closes the stale
records' sockets, and invokes the close callback once per stale id, in
snapshot order. -/
theorem checkConnectionsLoop_no_throw (now tmo : Int) (ct : Nat → Bool)
    (hnt : ∀ n, ct n = false) :
    ∀ (ids : List String) (r : Realm), ids.Nodup →
      (r.clients.map Prod.fst).Nodup →
      checkConnectionsLoop now tmo ct ids r =
        ⟨⟨r.clients.filter (fun p => !(ids.contains p.1 && isStale now tmo p.2)),
          r.messageQueues.filter
            (fun q => !(ids.contains q.1 && staleKey now tmo r q.1))⟩,
         sweptSockets now tmo r ids, sweptClients now tmo r ids, false⟩ := by
  intro ids
  induction ids with
  | nil =>
    intro r _ _
    simp [checkConnectionsLoop, sweptClients, sweptSockets]
  | cons cid rest ih =>
    intro r hids hkeys
    rw [List.nodup_cons] at hids
    obtain ⟨hcr, hrest⟩ := hids
    cases hcl : r.getClientById cid with
    | none =>
      have hf := find?_eq_none_of_lookup_none r cid hcl
      have hne := ne_key_of_find?_none r.clients cid hf
      have hloop : checkConnectionsLoop now tmo ct (cid :: rest) r =
          checkConnectionsLoop now tmo ct rest r := by
        simp only [checkConnectionsLoop]
        rw [hcl]
      rw [hloop, ih r hrest hkeys]
      have hc : r.clients.filter (fun p => !(rest.contains p.1 && isStale now tmo p.2)) =
          r.clients.filter
            (fun p => !((cid :: rest).contains p.1 && isStale now tmo p.2)) := by
        apply List.filter_congr
        intro p hp
        simp [List.contains_cons, hne p hp]
      have hq : r.messageQueues.filter
            (fun q => !(rest.contains q.1 && staleKey now tmo r q.1)) =
          r.messageQueues.filter
            (fun q => !((cid :: rest).contains q.1 && staleKey now tmo r q.1)) := by
        apply List.filter_congr
        intro q hq'
        by_cases hqc : q.1 = cid
        · have hsk : staleKey now tmo r q.1 = false := by
            unfold staleKey; rw [hqc, hcl]
          simp [hsk]
        · simp [List.contains_cons, hqc]
      have hs1 : sweptSockets now tmo r (cid :: rest) = sweptSockets now tmo r rest := by
        simp [sweptSockets, List.filterMap_cons, hcl]
      have hc1 : sweptClients now tmo r (cid :: rest) = sweptClients now tmo r rest := by
        simp [sweptClients, List.filterMap_cons, hcl]
      rw [hc, hq, hs1, hc1]
    | some c =>
      have hval := value_eq_of_lookup r.clients cid c hkeys hcl
      by_cases hst : now - c.lastPing < tmo
      · -- fresh record: skipped, untouched
        have hstale_c : isStale now tmo c = false := by
          have hn : ¬(tmo ≤ now - c.lastPing) := by omega
          simp [isStale, hn]
        have hloop : checkConnectionsLoop now tmo ct (cid :: rest) r =
            checkConnectionsLoop now tmo ct rest r := by
          simp only [checkConnectionsLoop]
          rw [hcl]
          dsimp only
          rw [if_pos hst]
        rw [hloop, ih r hrest hkeys]
        have hc : r.clients.filter
              (fun p => !(rest.contains p.1 && isStale now tmo p.2)) =
            r.clients.filter
              (fun p => !((cid :: rest).contains p.1 && isStale now tmo p.2)) := by
          apply List.filter_congr
          intro p hp
          by_cases hpc : p.1 = cid
          · have hp2 : p.2 = c := hval p hp hpc
            simp [hp2, hstale_c]
          · simp [List.contains_cons, hpc]
        have hq : r.messageQueues.filter
              (fun q => !(rest.contains q.1 && staleKey now tmo r q.1)) =
            r.messageQueues.filter
              (fun q => !((cid :: rest).contains q.1 && staleKey now tmo r q.1)) := by
          apply List.filter_congr
          intro q hq'
          by_cases hqc : q.1 = cid
          · have hsk : staleKey now tmo r q.1 = false := by
              unfold staleKey; rw [hqc, hcl]; exact hstale_c
            simp [hsk]
          · simp [List.contains_cons, hqc]
        have hs1 : sweptSockets now tmo r (cid :: rest) =
            sweptSockets now tmo r rest := by
          simp [sweptSockets, List.filterMap_cons, hcl, hstale_c]
        have hc1 : sweptClients now tmo r (cid :: rest) =
            sweptClients now tmo r rest := by
          simp [sweptClients, List.filterMap_cons, hcl, hstale_c]
        rw [hc, hq, hs1, hc1]
      · -- stale record: evicted
        have hstale_c : isStale now tmo c = true := by
          have hn : tmo ≤ now - c.lastPing := by omega
          simp [isStale, hn]
        have hthrew : (match c.socket with
            | some s => ct s.sid
            | none => false) = false := by
          cases c.socket with
          | none => rfl
          | some s => exact hnt s.sid
        have hloop : checkConnectionsLoop now tmo ct (cid :: rest) r =
            ⟨(checkConnectionsLoop now tmo ct rest
                ((r.clearMessageQueue cid).removeClientById cid)).realm,
             (match c.socket with | some s => [s.sid] | none => []) ++
               (checkConnectionsLoop now tmo ct rest
                 ((r.clearMessageQueue cid).removeClientById cid)).closed,
             { c with socket := none } ::
               (checkConnectionsLoop now tmo ct rest
                 ((r.clearMessageQueue cid).removeClientById cid)).callbacks,
             (checkConnectionsLoop now tmo ct rest
               ((r.clearMessageQueue cid).removeClientById cid)).aborted⟩ := by
          simp only [checkConnectionsLoop]
          rw [hcl]
          dsimp only
          rw [if_neg hst]
          simp only [hthrew, Bool.false_eq_true, if_false]
        have hkeys1 : ((((r.clearMessageQueue cid).removeClientById
            cid)).clients.map Prod.fst).Nodup := by
          have hsub : List.Sublist
              (((r.clearMessageQueue cid).removeClientById cid).clients.map Prod.fst)
              (r.clients.map Prod.fst) :=
            List.Sublist.map Prod.fst (List.filter_sublist r.clients)
          exact List.Nodup.sublist hsub hkeys
        have hframe : ∀ k ∈ rest,
            ((r.clearMessageQueue cid).removeClientById cid).getClientById k =
              r.getClientById k := by
          intro k hk
          have hkc : k ≠ cid := fun he => hcr (he ▸ hk)
          exact getClientById_cleanup_ne r cid k hkc
        rw [hloop, ih ((r.clearMessageQueue cid).removeClientById cid) hrest hkeys1]
        dsimp only
        have ha : ((r.clearMessageQueue cid).removeClientById cid).clients.filter
              (fun p => !(rest.contains p.1 && isStale now tmo p.2)) =
            r.clients.filter
              (fun p => !((cid :: rest).contains p.1 && isStale now tmo p.2)) := by
          show (r.clients.filter (fun p => p.1 != cid)).filter
              (fun p => !(rest.contains p.1 && isStale now tmo p.2)) = _
          rw [List.filter_filter]
          apply List.filter_congr
          intro p hp
          by_cases hpc : p.1 = cid
          · have hp2 : p.2 = c := hval p hp hpc
            simp [hpc, hp2, hstale_c, List.contains_cons]
          · simp [List.contains_cons, hpc, bne]
        have hb : ((r.clearMessageQueue cid).removeClientById cid).messageQueues.filter
              (fun q => !(rest.contains q.1 &&
                staleKey now tmo ((r.clearMessageQueue cid).removeClientById cid) q.1)) =
            r.messageQueues.filter
              (fun q => !((cid :: rest).contains q.1 && staleKey now tmo r q.1)) := by
          show (r.messageQueues.filter (fun q => q.1 != cid)).filter _ = _
          rw [List.filter_filter]
          apply List.filter_congr
          intro q hq'
          by_cases hqc : q.1 = cid
          · have hsk : staleKey now tmo r cid = true := by
              unfold staleKey; rw [hcl]; exact hstale_c
            simp [hqc, hsk, List.contains_cons]
          · have hsk : staleKey now tmo
                ((r.clearMessageQueue cid).removeClientById cid) q.1 =
                staleKey now tmo r q.1 := by
              unfold staleKey
              rw [getClientById_cleanup_ne r cid q.1 hqc]
            simp [List.contains_cons, hqc, bne, hsk]
        have hfs : sweptSockets now tmo
            ((r.clearMessageQueue cid).removeClientById cid) rest =
            sweptSockets now tmo r rest :=
          sweptSockets_congr now tmo _ r rest hframe
        have hfc : sweptClients now tmo
            ((r.clearMessageQueue cid).removeClientById cid) rest =
            sweptClients now tmo r rest :=
          sweptClients_congr now tmo _ r rest hframe
        have hswS : sweptSockets now tmo r (cid :: rest) =
            (match c.socket with | some s => [s.sid] | none => []) ++
              sweptSockets now tmo r rest := by
          cases hcs : c.socket with
          | none => simp [sweptSockets, List.filterMap_cons, hcl, hstale_c, hcs]
          | some s => simp [sweptSockets, List.filterMap_cons, hcl, hstale_c, hcs]
        have hswC : sweptClients now tmo r (cid :: rest) =
            { c with socket := none } :: sweptClients now tmo r rest := by
          simp [sweptClients, List.filterMap_cons, hcl, hstale_c]
        rw [ha, hb, hfs, hfc, hswS, hswC]

theorem find?_filter_keep {α : Type} (f : String × α → Bool) (k : String) :
    ∀ (l : List (String × α)),
      (∀ p ∈ l, p.1 = k → f p = true) →
      (l.filter f).find? (fun p => p.1 == k) = l.find? (fun p => p.1 == k)
  | [], _ => rfl
  | hd :: tl, hkeep => by
    have ih := find?_filter_keep f k tl (fun p hp => hkeep p (List.mem_cons_of_mem hd hp))
    by_cases hhd : hd.1 = k
    · have hf : f hd = true := hkeep hd (List.mem_cons_self hd tl) hhd
      have h1 : (hd.1 == k) = true := by simp [hhd]
      rw [List.filter_cons, hf]
      simp only [if_true]
      rw [find?_key_cons_pos hd _ k h1, find?_key_cons_pos hd tl k h1]
    · have h1 : (hd.1 == k) = false := by simp [hhd]
      cases hf : f hd with
      | true =>
        rw [List.filter_cons, hf]
        simp only [if_true]
        rw [find?_key_cons_neg hd _ k h1, find?_key_cons_neg hd tl k h1]
        exact ih
      | false =>
        rw [List.filter_cons, hf]
        simp only [Bool.false_eq_true, if_false]
        rw [find?_key_cons_neg hd tl k h1]
        exact ih

theorem find?_filter_drop {α : Type} (f : String × α → Bool) (k : String) :
    ∀ (l : List (String × α)),
      (∀ p ∈ l, p.1 = k → f p = false) →
      (l.filter f).find? (fun p => p.1 == k) = none
  | [], _ => rfl
  | hd :: tl, hdrop => by
    have ih := find?_filter_drop f k tl (fun p hp => hdrop p (List.mem_cons_of_mem hd hp))
    by_cases hhd : hd.1 = k
    · have hf : f hd = false := hdrop hd (List.mem_cons_self hd tl) hhd
      rw [List.filter_cons, hf]
      simp only [Bool.false_eq_true, if_false]
      exact ih
    · have h1 : (hd.1 == k) = false := by simp [hhd]
      cases hf : f hd with
      | true =>
        rw [List.filter_cons, hf]
        simp only [if_true]
        rw [find?_key_cons_neg hd _ k h1]
        exact ih
      | false =>
        rw [List.filter_cons, hf]
        simp only [Bool.false_eq_true, if_false]
        exact ih

theorem id_eq_of_lookup (r : Realm) (hwf : ∀ p ∈ r.clients, p.2.id = p.1)
    (k : String) (c : Client) (h : r.getClientById k = some c) : c.id = k := by
  unfold Realm.getClientById at h
  cases hf : r.clients.find? (fun p => p.1 == k) with
  | none => rw [hf] at h; simp at h
  | some pr =>
    rw [hf] at h
    simp at h
    have hmem := List.mem_of_find?_eq_some hf
    have hpred := List.find?_some hf
    simp at hpred
    rw [← h, hwf pr hmem]
    exact hpred

theorem mem_keys_of_lookup (r : Realm) (k : String) (c : Client)
    (h : r.getClientById k = some c) : k ∈ r.getClientsIds := by
  unfold Realm.getClientById at h
  cases hf : r.clients.find? (fun p => p.1 == k) with
  | none => rw [hf] at h; simp at h
  | some pr =>
    have hmem := List.mem_of_find?_eq_some hf
    have hpred := List.find?_some hf
    simp at hpred
    unfold Realm.getClientsIds
    rw [← hpred]
    exact List.mem_map_of_mem Prod.fst hmem

theorem sweptClients_filter_id (now tmo : Int) (r : Realm) (cid : String) (c : Client)
    (hwf : ∀ p ∈ r.clients, p.2.id = p.1)
    (hcl : r.getClientById cid = some c) (hst : isStale now tmo c = true) :
    ∀ ids : List String, ids.Nodup → cid ∈ ids →
      (sweptClients now tmo r ids).filter (fun x => x.id == cid) =
        [{ c with socket := none }]
  | [], _, hmem => absurd hmem (List.not_mem_nil cid)
  | k :: rest, hnd, hmem => by
    rw [List.nodup_cons] at hnd
    by_cases hk : k = cid
    · subst hk
      have htail : (sweptClients now tmo r rest).filter (fun x => x.id == k) = [] := by
        rw [List.filter_eq_nil_iff]
        intro x hx hxk
        simp at hxk
        unfold sweptClients at hx
        rw [List.mem_filterMap] at hx
        obtain ⟨k2, hk2mem, hk2⟩ := hx
        cases hlk : r.getClientById k2 with
        | none => rw [hlk] at hk2; simp at hk2
        | some c2 =>
          rw [hlk] at hk2
          dsimp only at hk2
          by_cases hs2 : isStale now tmo c2 = true
          · rw [if_pos hs2] at hk2
            simp at hk2
            have hid : c2.id = k2 := id_eq_of_lookup r hwf k2 c2 hlk
            apply hnd.1
            have hxid : x.id = k2 := by rw [← hk2]; exact hid
            rw [← hxk, hxid]
            exact hk2mem
          · rw [if_neg hs2] at hk2
            simp at hk2
      have hhead : sweptClients now tmo r (k :: rest) =
          { c with socket := none } :: sweptClients now tmo r rest := by
        simp [sweptClients, List.filterMap_cons, hcl, hst]
      rw [hhead, List.filter_cons]
      have hcidid : c.id = k := id_eq_of_lookup r hwf k c hcl
      have hcond : (({ c with socket := none } : Client).id == k) = true := by
        simp [hcidid]
      rw [hcond]
      simp only [if_true]
      rw [htail]
    · have hmem2 : cid ∈ rest := by
        rcases List.mem_cons.mp hmem with he | hr2
        · exact absurd he.symm hk
        · exact hr2
      have ih := sweptClients_filter_id now tmo r cid c hwf hcl hst rest hnd.2 hmem2
      cases hlk : r.getClientById k with
      | none =>
        have hh : sweptClients now tmo r (k :: rest) = sweptClients now tmo r rest := by
          simp [sweptClients, List.filterMap_cons, hlk]
        rw [hh]
        exact ih
      | some c2 =>
        by_cases hs2 : isStale now tmo c2 = true
        · have hh : sweptClients now tmo r (k :: rest) =
              { c2 with socket := none } :: sweptClients now tmo r rest := by
            simp [sweptClients, List.filterMap_cons, hlk, hs2]
          rw [hh, List.filter_cons]
          have hid2 : c2.id = k := id_eq_of_lookup r hwf k c2 hlk
          have hcond : (({ c2 with socket := none } : Client).id == cid) = false := by
            simp [hid2]
            exact hk
          rw [hcond]
          simp only [Bool.false_eq_true, if_false]
          exact ih
        · have hh : sweptClients now tmo r (k :: rest) = sweptClients now tmo r rest := by
            simp [sweptClients, List.filterMap_cons, hlk, hs2]
          rw [hh]
          exact ih

/-- C8: in a throw-free liveness-sweep pass over a well-formed registry
(duplicate-free keys, each record's `id` equal to its key): a snapshot id
whose record is absent is skipped; a record with `now - lastSeen` strictly
below `alive_timeout` is left untouched (record and queue); a stale record
has its socket (when present) closed, its queue cleared, its record
removed, and the close callback invoked exactly once for that identity,
with the detached record; and the pass completes without aborting. -/
theorem C8_sweep_pass_behaviour (now tmo : Int) (ct : Nat → Bool) (r : Realm)
    (hnt : ∀ n, ct n = false)
    (hkeys : (r.clients.map Prod.fst).Nodup)
    (hwf : ∀ p ∈ r.clients, p.2.id = p.1) :
    (∀ (ids : List String) (cid : String) (r0 : Realm), r0.getClientById cid = none →
      checkConnectionsLoop now tmo ct (cid :: ids) r0 =
        checkConnectionsLoop now tmo ct ids r0) ∧
    (∀ cid c, r.getClientById cid = some c → isStale now tmo c = false →
      (checkConnections now tmo ct r).realm.getClientById cid = some c ∧
      (checkConnections now tmo ct r).realm.messageQueues.find?
          (fun q => q.1 == cid) =
        r.messageQueues.find? (fun q => q.1 == cid)) ∧
    (∀ cid c, r.getClientById cid = some c → isStale now tmo c = true →
      (checkConnections now tmo ct r).realm.getClientById cid = none ∧
      (checkConnections now tmo ct r).realm.messageQueues.find?
          (fun q => q.1 == cid) = none ∧
      (∀ s, c.socket = some s → s.sid ∈ (checkConnections now tmo ct r).closed) ∧
      (checkConnections now tmo ct r).callbacks.filter (fun x => x.id == cid) =
        [{ c with socket := none }]) ∧
    (checkConnections now tmo ct r).aborted = false := by
  have hres : checkConnections now tmo ct r =
      ⟨⟨r.clients.filter
          (fun p => !(r.getClientsIds.contains p.1 && isStale now tmo p.2)),
        r.messageQueues.filter
          (fun q => !(r.getClientsIds.contains q.1 && staleKey now tmo r q.1))⟩,
       sweptSockets now tmo r r.getClientsIds, sweptClients now tmo r r.getClientsIds,
       false⟩ :=
    checkConnectionsLoop_no_throw now tmo ct hnt r.getClientsIds r hkeys hkeys
  refine ⟨?_, ?_, ?_, ?_⟩
  · intro ids cid r0 h0
    simp only [checkConnectionsLoop]
    rw [h0]
  · intro cid c hcl hfresh
    have hkeep : ∀ p ∈ r.clients, p.1 = cid →
        (!(r.getClientsIds.contains p.1 && isStale now tmo p.2)) = true := by
      intro p hp hpk
      have hp2 : p.2 = c := value_eq_of_lookup r.clients cid c hkeys hcl p hp hpk
      simp [hp2, hfresh]
    have hkeepq : ∀ q ∈ r.messageQueues, q.1 = cid →
        (!(r.getClientsIds.contains q.1 && staleKey now tmo r q.1)) = true := by
      intro q hq hqk
      have hsk : staleKey now tmo r q.1 = false := by
        unfold staleKey
        rw [hqk, hcl]
        exact hfresh
      simp [hsk]
    constructor
    · rw [hres]
      show ((r.clients.filter _).find? (fun p => p.1 == cid)).map Prod.snd = some c
      rw [find?_filter_keep _ cid r.clients hkeep]
      exact hcl
    · rw [hres]
      exact find?_filter_keep _ cid r.messageQueues hkeepq
  · intro cid c hcl hstale
    have hmem : cid ∈ r.getClientsIds := mem_keys_of_lookup r cid c hcl
    have hdrop : ∀ p ∈ r.clients, p.1 = cid →
        (!(r.getClientsIds.contains p.1 && isStale now tmo p.2)) = false := by
      intro p hp hpk
      have hp2 : p.2 = c := value_eq_of_lookup r.clients cid c hkeys hcl p hp hpk
      simp [hpk, hp2, hstale, hmem]
    have hdropq : ∀ q ∈ r.messageQueues, q.1 = cid →
        (!(r.getClientsIds.contains q.1 && staleKey now tmo r q.1)) = false := by
      intro q hq hqk
      have hsk : staleKey now tmo r cid = true := by
        unfold staleKey
        rw [hcl]
        exact hstale
      simp [hqk, hsk, hmem]
    refine ⟨?_, ?_, ?_, ?_⟩
    · rw [hres]
      show ((r.clients.filter _).find? (fun p => p.1 == cid)).map Prod.snd = none
      rw [find?_filter_drop _ cid r.clients hdrop]
      rfl
    · rw [hres]
      exact find?_filter_drop _ cid r.messageQueues hdropq
    · intro s hsock
      rw [hres]
      show s.sid ∈ r.getClientsIds.filterMap _
      rw [List.mem_filterMap]
      refine ⟨cid, hmem, ?_⟩
      simp [hcl, hstale, hsock]
    · rw [hres]
      exact sweptClients_filter_id now tmo r cid c hwf hcl hstale
        r.getClientsIds hkeys hmem
  · rw [hres]

theorem C8_sweep_pass_behaviour_witness :
    (checkConnections 100 50 (fun _ => false)
        ⟨[("f", ⟨"f", "t", some ⟨1, none, none, none⟩, 60⟩),
          ("s", ⟨"s", "t", some ⟨2, none, none, none⟩, 0⟩)],
         [("s", []), ("f", [])]⟩).realm.getClientById "f" =
      some ⟨"f", "t", some ⟨1, none, none, none⟩, 60⟩ ∧
    (checkConnections 100 50 (fun _ => false)
        ⟨[("f", ⟨"f", "t", some ⟨1, none, none, none⟩, 60⟩),
          ("s", ⟨"s", "t", some ⟨2, none, none, none⟩, 0⟩)],
         [("s", []), ("f", [])]⟩).realm.getClientById "s" = none ∧
    (2 : Nat) ∈ (checkConnections 100 50 (fun _ => false)
        ⟨[("f", ⟨"f", "t", some ⟨1, none, none, none⟩, 60⟩),
          ("s", ⟨"s", "t", some ⟨2, none, none, none⟩, 0⟩)],
         [("s", []), ("f", [])]⟩).closed ∧
    (checkConnections 100 50 (fun _ => false)
        ⟨[("f", ⟨"f", "t", some ⟨1, none, none, none⟩, 60⟩),
          ("s", ⟨"s", "t", some ⟨2, none, none, none⟩, 0⟩)],
         [("s", []), ("f", [])]⟩).callbacks.filter (fun x => x.id == "s") =
      [⟨"s", "t", none, 0⟩] ∧
    (checkConnections 100 50 (fun _ => false)
        ⟨[("f", ⟨"f", "t", some ⟨1, none, none, none⟩, 60⟩),
          ("s", ⟨"s", "t", some ⟨2, none, none, none⟩, 0⟩)],
         [("s", []), ("f", [])]⟩).aborted = false := by
  have h := C8_sweep_pass_behaviour 100 50 (fun _ => false)
    ⟨[("f", ⟨"f", "t", some ⟨1, none, none, none⟩, 60⟩),
      ("s", ⟨"s", "t", some ⟨2, none, none, none⟩, 0⟩)],
     [("s", []), ("f", [])]⟩ (fun n => rfl) (by decide) (by decide)
  exact ⟨(h.2.1 "f" ⟨"f", "t", some ⟨1, none, none, none⟩, 60⟩ (by decide) (by decide)).1,
    (h.2.2.1 "s" ⟨"s", "t", some ⟨2, none, none, none⟩, 0⟩ (by decide) (by decide)).1,
    (h.2.2.1 "s" ⟨"s", "t", some ⟨2, none, none, none⟩, 0⟩ (by decide)
      (by decide)).2.2.1 ⟨2, none, none, none⟩ rfl,
    (h.2.2.1 "s" ⟨"s", "t", some ⟨2, none, none, none⟩, 0⟩ (by decide)
      (by decide)).2.2.2,
    h.2.2.2⟩

/-! ## Claim theorems: timer discipline -/

theorem firePasses_eq_passChain :
    ∀ (ds : List Nat) (t : SweeperTimer) (ft : Nat), t.pendingFireAt = some ft →
      firePasses t ds = passChain t.checkInterval ft ds
  | [], _, _, _ => rfl
  | d :: ds, t, ft, h => by
    have ih := firePasses_eq_passChain ds
      { t with pendingFireAt := some (ft + d + t.checkInterval) }
      (ft + d + t.checkInterval) rfl
    simp only [firePasses, SweeperTimer.fire, h]
    rw [passChain, ih]

theorem passChain_lb (interval : Nat) :
    ∀ (ds : List Nat) (ft : Nat) (p : Nat × Nat),
      p ∈ passChain interval ft ds → ft ≤ p.1
  | [], _, p, hp => absurd hp (List.not_mem_nil p)
  | d :: ds, ft, p, hp => by
    rw [passChain] at hp
    rcases List.mem_cons.mp hp with rfl | hp2
    · exact Nat.le_refl ft
    · have := passChain_lb interval ds (ft + d + interval) p hp2
      omega

theorem passChain_pairwise (interval : Nat) (hpos : 0 < interval) :
    ∀ (ds : List Nat) (ft : Nat),
      (passChain interval ft ds).Pairwise (fun a b => a.2 < b.1)
  | [], _ => List.Pairwise.nil
  | d :: ds, ft => by
    rw [passChain]
    apply List.Pairwise.cons
    · intro b hb
      have := passChain_lb interval ds (ft + d + interval) b hb
      show ft + d < b.1
      omega
    · exact passChain_pairwise interval hpos ds (ft + d + interval)

/-- C10: the sweeper timer discipline — the default interval is 300;
`start()` cancels any pending timer and arms exactly one timer
`checkInterval` from now (hence it is a clean re-arm when called while
already running); `stop()` cancels the pending pass and reschedules
nothing; a firing pass re-arms the next pass `checkInterval` after the
current pass completes (not at a fixed rate); and consequently, for a
positive interval, the passes produced by the self-rescheduling timer are
pairwise non-overlapping (each pass ends strictly before the next starts). -/
theorem C10_self_rescheduling_timer (t : SweeperTimer) (dur ft : Nat) (ds : List Nat)
    (hpend : t.pendingFireAt = some ft) (hpos : 0 < t.checkInterval) :
    DEFAULT_CHECK_INTERVAL = 300 ∧
    (∀ (u : SweeperTimer) (n : Nat),
      (u.start n).pendingFireAt = some (n + u.checkInterval)) ∧
    (∀ u : SweeperTimer, u.stop.pendingFireAt = none) ∧
    t.fire dur = some ({ t with pendingFireAt := some (ft + dur + t.checkInterval) },
      ft, ft + dur) ∧
    (firePasses t ds).Pairwise (fun a b => a.2 < b.1) := by
  refine ⟨rfl, fun u n => rfl, fun u => rfl, ?_, ?_⟩
  · simp [SweeperTimer.fire, hpend]
  · rw [firePasses_eq_passChain ds t ft hpend]
    exact passChain_pairwise t.checkInterval hpos ds ft

theorem C10_self_rescheduling_timer_witness :
    (⟨300, some 0⟩ : SweeperTimer).fire 7 = some (⟨300, some 307⟩, 0, 7) ∧
    (firePasses ⟨300, some 0⟩ [10, 20]).Pairwise (fun a b => a.2 < b.1) := by
  have h := C10_self_rescheduling_timer ⟨300, some 0⟩ 7 0 [10, 20] rfl (by decide)
  exact ⟨h.2.2.2.1, h.2.2.2.2⟩

end PeerServer
